import Mathlib

/-!
Verification of the DASH PGAS runtime core against its specification.

This file gives a shallow embedding, in Lean 4, of the parts of the DASH
source that the specification's claims are about:

* `dash::accumulate` and its custom all-reduce payload
  (include/dash/algorithm/Accumulate.h),
* `dash::GlobAsyncRef` — struct-member rebinding and `flush`
  (include/dash/GlobAsyncRef.h),
* `dash::Future<GlobRef<T>>` — handle-based asynchronous reads
  (include/dash/GlobAsyncRef.h),
* `dash::util::PatternMetrics` (include/dash/util/PatternMetrics.h),
* the n-dimensional view algebra's `sub` operation (exercised by
  test/NViewTest.cc; the view implementation itself is not part of the
  source tree and is modelled from the specification).

The DART transport layer (`dart_allreduce`, `dart_get_handle`, `dart_flush`,
`dart_gptr_incaddr`, ...) is an external collaborator of the library; where
its behavior is needed it is modelled from the specification's description
of the transport interface.  Machine integers are modelled as `Nat`/`Int`
(all quantities involved stay far from overflow in the scenarios treated),
and the C++ `float` imbalance factor is modelled as an exact rational.
-/

/- ================================================================
   Section 1: dash::accumulate  (include/dash/algorithm/Accumulate.h)
   ================================================================ -/

/-- Embedding of `dash::internal::local_result<ValueType>`: the custom
all-reduce payload, a value together with a valid-flag.  The C++ member
initializers `ValueType value{}; bool valid = false;` value-initialize the
payload; the value-initialized `ValueType{}` is passed around explicitly as
a `deflt` parameter below. -/
structure local_result (α : Type) where
  value : α
  valid : Bool

/-- Embedding of `dash::internal::accumulate_custom_fn<ValueType, F>`:
the combiner registered with `dart_op_create`.  `inv` is the incoming
payload (`invec`), `inout` the accumulator (`inoutvec`); the user operation
`fn` is applied as `fn(in->value, inout->value)` only when both payloads
are valid; a lone valid payload wins; two invalid payloads leave the
accumulator unchanged. -/
def accumulate_custom_fn {α : Type} (fn : α → α → α)
    (inv : local_result α) (inout : local_result α) : local_result α :=
  if inv.valid then
    if inout.valid then ⟨fn inv.value inout.value, true⟩
    else ⟨inv.value, true⟩
  else inout

/-- Embedding of the local phase of `dash::accumulate` (Accumulate.h,
lines 92-99): if the local range is non-empty, the local result is
`std::accumulate(std::next(l_first), l_last, *l_first, binary_op)` — the
left fold of the local elements starting from the first one — with the
valid flag set; an empty local range leaves the payload value-initialized
(`deflt`) and invalid. -/
def localFold {α : Type} (fn : α → α → α) (deflt : α) : List α → local_result α
  | [] => ⟨deflt, false⟩
  | x :: xs => ⟨xs.foldl fn x, true⟩

/-- Modelled from the spec: `dart_allreduce` with the custom operation
created by `dart_op_create` from `accumulate_custom_fn`.  The transport is
an external collaborator; the specification describes the all-reduce as
combining every unit's payload with the registered operation.  It is
modelled as a left fold of the combiner over the per-unit payloads,
starting from a value-initialized (invalid) accumulator — which is neutral
for `accumulate_custom_fn`, so the result combines exactly the valid
payloads. -/
def dart_allreduce_custom {α : Type} (fn : α → α → α) (deflt : α)
    (contribs : List (local_result α)) : local_result α :=
  contribs.foldl (fun inout inv => accumulate_custom_fn fn inv inout) ⟨deflt, false⟩

/-- Modelled from the spec: `dart_allreduce` with a predefined (native)
reduction operation on raw values.  Combines the per-unit contributions
with the operation; modelled with the same combination structure as the
custom path (`fn contribution accumulator`). -/
def dart_allreduce_native {α : Type} (fn : α → α → α) (deflt : α) : List α → α
  | [] => deflt
  | v :: vs => vs.foldl (fun inout inv => fn inv inout) v

/-- Embedding of the path-selection condition in `dash::accumulate`
(Accumulate.h, line 104): the custom payload is used when
`!non_empty || dop == DART_OP_UNDEFINED || dtype == DART_TYPE_UNDEFINED`;
the native all-reduce is used otherwise.  `dop_defined` stands for
"`dart_reduce_operation<BinaryOperation>` is a predefined reduction" and
`dtype_defined` for "`dart_storage<ValueType>` maps to a transport
primitive type". -/
def accumulate_uses_native (non_empty dop_defined dtype_defined : Bool) : Bool :=
  !(!non_empty || !dop_defined || !dtype_defined)

/-- Embedding of the computation of `g_result` in `dash::accumulate`
(Accumulate.h, lines 92-120).  `locals` holds every unit's local range (in
canonical local order); each unit folds its local range (`localFold`),
then either the custom all-reduce over the `(value, valid)` payloads or
the native all-reduce over the raw values combines the per-unit results.
On the native path the code sets `g_result.valid = true` by hand. -/
def accumulate_g {α : Type} (locals : List (List α)) (binop : α → α → α)
    (non_empty dop_defined dtype_defined : Bool) (deflt : α) : local_result α :=
  let contribs := locals.map (localFold binop deflt)
  if !non_empty || !dop_defined || !dtype_defined then
    dart_allreduce_custom binop deflt contribs
  else
    ⟨dart_allreduce_native binop deflt (contribs.map local_result.value), true⟩

/-- Embedding of the return value of `dash::accumulate` (Accumulate.h,
lines 124-128): `result = binary_op(init, g_result.value)`. -/
def accumulate {α : Type} (locals : List (List α)) (init : α) (binop : α → α → α)
    (non_empty dop_defined dtype_defined : Bool) (deflt : α) : α :=
  binop init (accumulate_g locals binop non_empty dop_defined dtype_defined deflt).value

/-- Embedding of the diagnostic in `dash::accumulate` (Accumulate.h,
lines 121-123): `DASH_LOG_ERROR("Found invalid reduction value!")` fires
exactly when `g_result.valid` is false; execution then continues and the
result is still returned. -/
def accumulate_logs_error {α : Type} (locals : List (List α)) (binop : α → α → α)
    (non_empty dop_defined dtype_defined : Bool) (deflt : α) : Bool :=
  !(accumulate_g locals binop non_empty dop_defined dtype_defined deflt).valid

/-- Embedding of the global-range overload of `dash::accumulate`
(Accumulate.h, lines 205-224): it computes the local range via
`dash::local_range` and dispatches to the local-range overload with
`units_non_empty = false` (a compile-time constant, see line 217). -/
def accumulate_glob {α : Type} (locals : List (List α)) (init : α)
    (binop : α → α → α) (dop_defined dtype_defined : Bool) (deflt : α) : α :=
  accumulate locals init binop false dop_defined dtype_defined deflt

/-- Restatement of the specification's local phase ("every unit computes a
local fold over its local range with `binop` in canonical local order
starting from the first local element"), used to compare the embedding of
the code against the specification's wording.  The `deflt` value is only
reached on an empty local range, where the specification's phrase does not
apply. -/
def spec_local_contribution {α : Type} (binop : α → α → α) (deflt : α) : List α → α
  | [] => deflt
  | x :: xs => xs.foldl binop x

/-- Restatement of the specification's combine phase ("an all-reduce
combines per-unit results with `binop`"), used to compare the embedding of
the code against the specification's wording. -/
def spec_allreduce {α : Type} (binop : α → α → α) (deflt : α) : List α → α
  | [] => deflt
  | c :: cs => cs.foldl (fun acc v => binop v acc) c

/- ================================================================
   Section 2: dash::GlobAsyncRef  (include/dash/GlobAsyncRef.h)
   ================================================================ -/

/-- Modelled from the spec: the DART global pointer, a
`(segment, unit, offset)` triple naming one element in global memory; the
transport declares the type and a distinguished sentinel `DART_GPTR_NULL`. -/
structure dart_gptr_t where
  unitid : Int
  segid : Nat
  addr : Nat
deriving DecidableEq

/-- Modelled from the spec: the distinguished null global pointer. -/
def DART_GPTR_NULL : dart_gptr_t := ⟨-1, 0, 0⟩

/-- Modelled from the spec: the `DART_GPTR_ISNULL` test against the
sentinel. -/
def DART_GPTR_ISNULL (g : dart_gptr_t) : Bool :=
  decide (g = DART_GPTR_NULL)

/-- Modelled from the spec: `dart_gptr_incaddr` advances the address
(byte offset) of a global pointer, leaving unit and segment unchanged. -/
def dart_gptr_incaddr (g : dart_gptr_t) (offs : Nat) : dart_gptr_t :=
  ⟨g.unitid, g.segid, g.addr + offs⟩

/-- Embedding of the state of `dash::GlobAsyncRef<T>` (GlobAsyncRef.h,
lines 76-82): the referenced element's global pointer (`_gptr`, default
`DART_GPTR_NULL`), the cached local address (`_lptr`, default `nullptr`,
modelled as `Option Nat` over byte addresses) and the locality flag
(`_is_local`, default `false`). -/
structure GlobAsyncRef where
  _gptr : dart_gptr_t
  _lptr : Option Nat
  _is_local : Bool
deriving DecidableEq

/-- A `GlobAsyncRef` with all members at their default initializers
(GlobAsyncRef.h, lines 76-82). -/
def GlobAsyncRef.defaultInit : GlobAsyncRef :=
  ⟨DART_GPTR_NULL, none, false⟩

/-- Embedding of the private member-rebinding constructor
`GlobAsyncRef(parent, offset)` (GlobAsyncRef.h, lines 90-105): the global
pointer is the parent's advanced by `offs` bytes via `dart_gptr_incaddr`,
the local pointer is the parent's advanced by `offs` bytes when the parent
is local and `nullptr` otherwise, and the locality flag is inherited.
Both `member` overloads (by byte offset, lines 187-190, and by
pointer-to-member, lines 195-200, which computes the member's byte offset
and delegates to the former) construct exactly this. -/
def GlobAsyncRef.memberAt (parent : GlobAsyncRef) (offs : Nat) : GlobAsyncRef :=
  ⟨dart_gptr_incaddr parent._gptr offs,
   if parent._is_local then parent._lptr.map (fun l => l + offs) else none,
   parent._is_local⟩

/-- Operations a `GlobAsyncRef` may issue to the transport. -/
inductive TransportOp where
  | flushOp : dart_gptr_t → TransportOp
deriving DecidableEq

/-- Embedding of `GlobAsyncRef::flush` (GlobAsyncRef.h, lines 293-302):
the list of transport operations it performs.  `dart_flush(_gptr)` is
called iff `!DART_GPTR_ISNULL(_gptr)`, irrespective of the locality flag;
on a null global pointer nothing is issued and the call returns normally. -/
def GlobAsyncRef.flush (r : GlobAsyncRef) : List TransportOp :=
  if DART_GPTR_ISNULL r._gptr then [] else [TransportOp.flushOp r._gptr]

/- ================================================================
   Section 3: dash::Future<GlobRef<T>>  (include/dash/GlobAsyncRef.h)
   ================================================================ -/

/-- Embedding of the state of `dash::Future<dash::GlobRef<T>>`
(GlobAsyncRef.h, lines 328-332) together with the handle registered with
the transport.  The calling unit's memory is modelled as a word-addressed
store `Nat → Nat`; `valptrAddr` is the address of the `_valptr` member
itself (a `std::unique_ptr<value_t>`, i.e. a cell holding the address of
the heap buffer), and `handleDest` is the destination address that the
constructor registered with `dart_get_handle`. -/
structure FutureRaw where
  valptrAddr : Nat
  handleDest : Nat
  completed : Bool

/-- Embedding of the `Future` constructors (GlobAsyncRef.h, lines 339-347
and 352-360), which are textually identical for `GlobRef` and
`GlobAsyncRef` arguments: `_valptr(new value_t)` stores a fresh buffer
address `bufAddr` into the member cell at `valptrAddr`, then
`dart_get_handle(&_valptr, ...)` registers a destination with the
transport.  The code passes `&_valptr` — the address of the `unique_ptr`
member itself — so the registered destination is `valptrAddr`, not the
buffer. -/
def Future_ctor (mem : Nat → Nat) (valptrAddr bufAddr : Nat) :
    (Nat → Nat) × FutureRaw :=
  (fun a => if a = valptrAddr then bufAddr else mem a,
   ⟨valptrAddr, valptrAddr, false⟩)

/-- The constructor as the surrounding documentation and the specification
intend it: the destination registered with `dart_get_handle` is the heap
buffer `_valptr.get()`, i.e. `bufAddr`. -/
def Future_ctor_intended (mem : Nat → Nat) (valptrAddr bufAddr : Nat) :
    (Nat → Nat) × FutureRaw :=
  (fun a => if a = valptrAddr then bufAddr else mem a,
   ⟨valptrAddr, bufAddr, false⟩)

/-- Embedding of `Future::wait` (GlobAsyncRef.h, lines 390-396): if the
transfer is not yet completed, `dart_wait(_handle)` completes it — the
transport deposits the fetched element value at the registered destination
address — and the completion flag is set.  `fetched` is the value of the
referenced element `arr[i]` (stable here: the claim reads after a
barrier). -/
def Future_wait (fetched : Nat) (st : (Nat → Nat) × FutureRaw) :
    (Nat → Nat) × FutureRaw :=
  if st.2.completed then st
  else (fun a => if a = st.2.handleDest then fetched else st.1 a,
        ⟨st.2.valptrAddr, st.2.handleDest, true⟩)

/-- Embedding of `Future::get` (GlobAsyncRef.h, lines 402-408): waits if
not completed, then returns `*_valptr` — the word at the address currently
stored in the member cell at `valptrAddr`. -/
def Future_get (fetched : Nat) (st : (Nat → Nat) × FutureRaw) :
    Nat × ((Nat → Nat) × FutureRaw) :=
  let st' := if st.2.completed then st else Future_wait fetched st
  (st'.1 (st'.1 st'.2.valptrAddr), st')

/- ================================================================
   Section 4: dash::util::PatternMetrics  (include/dash/util/PatternMetrics.h)
   ================================================================ -/

/-- The interface of a rank-2 pattern as consumed by
`PatternMetrics::init_metrics` (PatternMetrics.h, lines 94-131):
`num_blocks = pattern.blockspec().size()`,
`nunits = pattern.teamspec().size()`,
`block_unit bi = pattern.unit_at({block(bi).offset(0), block(bi).offset(1)})`
(the owner of block `bi`'s first element), and the two per-dimension block
extents `pattern.blocksize(0)`, `pattern.blocksize(1)`. -/
structure MetricsPattern where
  num_blocks : Nat
  nunits : Nat
  block_unit : Nat → Nat
  blocksize0 : Nat
  blocksize1 : Nat

/-- Embedding of the `_unit_blocks` tally in
`PatternMetrics::init_metrics` (PatternMetrics.h, lines 99-111): a vector
of `int` counters, one per unit, initialized to zero; every block
increments the counter of the unit owning its first element. -/
def init_unit_blocks (p : MetricsPattern) : List Int :=
  (List.range p.num_blocks).foldl
    (fun ub bi => ub.set (p.block_unit bi) (ub.getD (p.block_unit bi) 0 + 1))
    (List.replicate p.nunits (0 : Int))

/-- Embedding of `PatternMetrics::unit_local_blocks` (PatternMetrics.h,
lines 86-88): `_unit_blocks[unit]`. -/
def PatternMetrics.unit_local_blocks (p : MetricsPattern) (u : Nat) : Int :=
  (init_unit_blocks p).getD u 0

/-- Embedding of `_block_size = pattern.blocksize(0) * pattern.blocksize(1)`
(PatternMetrics.h, line 113): the nominal number of elements of one full
block. -/
def PatternMetrics.block_size (p : MetricsPattern) : Int :=
  (p.blocksize0 * p.blocksize1 : Nat)

/-- Minimum of a non-empty list of `int`s, as computed by
`std::min_element` over `_unit_blocks` (PatternMetrics.h, lines 114-115). -/
def listMinI : List Int → Int
  | [] => 0
  | x :: xs => xs.foldl min x

/-- Maximum of a non-empty list of `int`s, as computed by
`std::max_element` over `_unit_blocks` (PatternMetrics.h, lines 116-117). -/
def listMaxI : List Int → Int
  | [] => 0
  | x :: xs => xs.foldl max x

/-- Embedding of `_min_blocks` (PatternMetrics.h, lines 114-115). -/
def PatternMetrics.min_blocks (p : MetricsPattern) : Int :=
  listMinI (init_unit_blocks p)

/-- Embedding of `_max_blocks` (PatternMetrics.h, lines 116-117). -/
def PatternMetrics.max_blocks (p : MetricsPattern) : Int :=
  listMaxI (init_unit_blocks p)

/-- Embedding of `PatternMetrics::min_elements_per_unit` (PatternMetrics.h,
lines 51-53): `_min_blocks * _block_size`. -/
def PatternMetrics.min_elements_per_unit (p : MetricsPattern) : Int :=
  PatternMetrics.min_blocks p * PatternMetrics.block_size p

/-- Embedding of `PatternMetrics::max_elements_per_unit` (PatternMetrics.h,
lines 65-67): `_max_blocks * _block_size`. -/
def PatternMetrics.max_elements_per_unit (p : MetricsPattern) : Int :=
  PatternMetrics.max_blocks p * PatternMetrics.block_size p

/-- Embedding of `_imb_factor` (PatternMetrics.h, lines 127-130):
`max_elements / min_elements` with `max_elements = _max_blocks * _block_size`
and `min_elements = _min_blocks * _block_size`.  The C++ computes the
quotient in `float`; it is modelled as an exact rational here. -/
def PatternMetrics.imbalance_factor (p : MetricsPattern) : ℚ :=
  (PatternMetrics.max_elements_per_unit p : ℚ) /
  (PatternMetrics.min_elements_per_unit p : ℚ)

/-- Ceiling division on naturals, `ceil(a / b)`. -/
def ceilDiv (a b : Nat) : Nat := (a + b - 1) / b

/-- Modelled from the spec: the rank-2 pattern with distribution
`(NONE, BLOCKED)` over a `1 x nunits` team grid (spec section 4.1) — the
pattern implementation itself is not part of the source tree.  Dimension 0
is not split (one block of extent `e0`); dimension 1 is split into blocks
of extent `ceil(e1 / nunits)`, the owner of column `j` being
`j / ceil(e1 / nunits)`.  Block `bi` starts at global offsets
`(0, bi * blocksize1)`, so its owner is `(bi * blocksize1) / blocksize1`. -/
def blockedPattern (e0 e1 nunits : Nat) : MetricsPattern :=
  let bs1 := ceilDiv e1 nunits
  { num_blocks := ceilDiv e1 bs1
  , nunits := nunits
  , block_unit := fun bi => (bi * bs1) / bs1
  , blocksize0 := e0
  , blocksize1 := bs1 }

/-- Modelled from the spec: the number of elements of the
`(NONE, BLOCKED)` pattern of extents `(e0, e1)` over `nunits` units that
are mapped to unit `u` — `e0` rows times the number of columns `j` with
`j / ceil(e1 / nunits) = u`. -/
def blockedLocalSize (e0 e1 nunits u : Nat) : Nat :=
  e0 * ((List.range e1).countP (fun j => j / ceilDiv e1 nunits == u))

/- ================================================================
   Section 5: the view algebra's sub operation  (test/NViewTest.cc)
   ================================================================ -/

/-- Modelled from the spec: the observable state of an n-dimensional view —
its cached per-dimension extents and offsets (spec section 4.4; the view
implementation is not part of the source tree, only test/NViewTest.cc
exercises it). -/
structure NView where
  extents : List Nat
  offsets : List Nat
deriving DecidableEq

/-- The extent of a view in dimension `d`. -/
def NView.extent (V : NView) (d : Nat) : Nat := V.extents.getD d 0

/-- Modelled from the spec: `sub<d>(a, b, V)` narrows dimension `d` of `V`
to `[a, b)` (spec section 4.4): the extent in dimension `d` becomes
`b - a`, the offset in dimension `d` is advanced by `a`, and all other
dimensions are unchanged; the rank is preserved. -/
def NView.sub (d a b : Nat) (V : NView) : NView :=
  ⟨V.extents.set d (b - a),
   V.offsets.set d (V.offsets.getD d 0 + a)⟩

/- ================================================================
   Helper lemmas: accumulate
   ================================================================ -/

/-- Folding the custom combiner over payloads that are all valid computes
the combination of all values, with the valid flag set. -/
theorem foldl_custom_all_valid {α : Type} (fn : α → α → α) :
    ∀ (vs : List α) (a : α),
    List.foldl (fun inout inv => accumulate_custom_fn fn inv inout)
      (⟨a, true⟩ : local_result α) (vs.map (fun v => ⟨v, true⟩)) =
      ⟨vs.foldl (fun acc v => fn v acc) a, true⟩ := by
  intro vs
  induction vs with
  | nil => intro a; rfl
  | cons v vs ih =>
    intro a
    have hstep :
        accumulate_custom_fn fn (⟨v, true⟩ : local_result α) ⟨a, true⟩ =
          ⟨fn v a, true⟩ := by
      simp [accumulate_custom_fn]
    simp only [List.map_cons, List.foldl_cons, hstep]
    exact ih (fn v a)

/-- The custom all-reduce over payloads that are all valid computes the
specification's combine phase, with the valid flag set. -/
theorem dart_allreduce_custom_all_valid {α : Type} (fn : α → α → α) (deflt : α)
    (vs : List α) (hvs : vs ≠ []) :
    dart_allreduce_custom fn deflt (vs.map (fun v => ⟨v, true⟩)) =
      ⟨spec_allreduce fn deflt vs, true⟩ := by
  match vs with
  | [] => exact absurd rfl hvs
  | v :: vs' =>
    have hstep :
        accumulate_custom_fn fn (⟨v, true⟩ : local_result α) ⟨deflt, false⟩ =
          ⟨v, true⟩ := by
      simp [accumulate_custom_fn]
    show List.foldl _ (accumulate_custom_fn fn ⟨v, true⟩ ⟨deflt, false⟩) _ = _
    rw [hstep]
    exact foldl_custom_all_valid fn vs' v

/-- The custom all-reduce over payloads that are all invalid returns the
value-initialized, invalid accumulator unchanged. -/
theorem dart_allreduce_custom_all_invalid {α : Type} (fn : α → α → α) (deflt : α)
    (contribs : List (local_result α)) (h : ∀ c ∈ contribs, c.valid = false) :
    dart_allreduce_custom fn deflt contribs = ⟨deflt, false⟩ := by
  induction contribs with
  | nil => rfl
  | cons c cs ih =>
    have hc : c.valid = false := h c (List.mem_cons_self c cs)
    have h1 : accumulate_custom_fn fn c ⟨deflt, false⟩ = ⟨deflt, false⟩ := by
      simp [accumulate_custom_fn, hc]
    show List.foldl _ (accumulate_custom_fn fn c ⟨deflt, false⟩) cs = _
    rw [h1]
    exact ih (fun x hx => h x (List.mem_cons_of_mem c hx))

/-- A non-empty local range folds to the specification's local
contribution, with the valid flag set. -/
theorem localFold_eq_spec {α : Type} (fn : α → α → α) (deflt : α)
    (l : List α) (h : l ≠ []) :
    localFold fn deflt l = ⟨spec_local_contribution fn deflt l, true⟩ := by
  match l with
  | [] => exact absurd rfl h
  | x :: xs => rfl

/-- When every unit's local range is non-empty, the per-unit payloads are
the specification's local contributions, all flagged valid. -/
theorem map_localFold_eq {α : Type} (fn : α → α → α) (deflt : α)
    (locals : List (List α)) (hl : ∀ l ∈ locals, l ≠ []) :
    locals.map (localFold fn deflt) =
      (locals.map (spec_local_contribution fn deflt)).map
        (fun v => (⟨v, true⟩ : local_result α)) := by
  rw [List.map_map]
  exact List.map_congr_left (fun l hml => localFold_eq_spec fn deflt l (hl l hml))

/-- The modelled native all-reduce coincides with the specification's
combine phase. -/
theorem dart_allreduce_native_eq_spec {α : Type} (fn : α → α → α) (deflt : α)
    (vs : List α) :
    dart_allreduce_native fn deflt vs = spec_allreduce fn deflt vs := by
  cases vs <;> rfl

/-- Folding the custom combiner skips invalid payloads: filtering them out
first does not change the result. -/
theorem foldl_custom_filter {α : Type} (fn : α → α → α) :
    ∀ (cs : List (local_result α)) (seed : local_result α),
    List.foldl (fun inout inv => accumulate_custom_fn fn inv inout) seed cs =
      List.foldl (fun inout inv => accumulate_custom_fn fn inv inout) seed
        (cs.filter fun c => c.valid) := by
  intro cs
  induction cs with
  | nil => intro seed; rfl
  | cons c cs ih =>
    intro seed
    by_cases hc : c.valid = true
    · simp only [List.filter_cons, hc, if_true, List.foldl_cons]
      exact ih _
    · have hc' : c.valid = false := by
        cases hcv : c.valid
        · rfl
        · exact absurd hcv hc
      have h1 : accumulate_custom_fn fn c seed = seed := by
        simp [accumulate_custom_fn, hc']
      simp only [List.filter_cons, hc', Bool.false_eq_true, if_false,
                 List.foldl_cons, h1]
      exact ih seed

/- ================================================================
   Claim theorems: C1 - C4 (dash::accumulate)
   ================================================================ -/

/-- C1: for every team (non-empty list of units) whose units all have
non-empty local ranges, every binary operation `binop` and every `init`,
`dash::accumulate` returns `binop(init, combined)`, where each unit's
contribution is the left fold of its local elements with `binop` starting
from the first local element, and `combined` is the all-reduce of the
per-unit contributions with `binop` — on both the native and the custom
all-reduce path, i.e. for every value of the `non_empty` hint and of the
op/type recognizability flags. -/
theorem accumulate_two_phase {α : Type} (locals : List (List α)) (init : α)
    (binop : α → α → α) (deflt : α) (ne dop dt : Bool)
    (hne : locals ≠ []) (hl : ∀ l ∈ locals, l ≠ []) :
    accumulate locals init binop ne dop dt deflt =
      binop init (spec_allreduce binop deflt
        (locals.map (spec_local_contribution binop deflt))) := by
  have hmap := map_localFold_eq binop deflt locals hl
  have hmne : locals.map (spec_local_contribution binop deflt) ≠ [] := by
    simpa using hne
  have hcust :
      dart_allreduce_custom binop deflt (locals.map (localFold binop deflt)) =
        ⟨spec_allreduce binop deflt
          (locals.map (spec_local_contribution binop deflt)), true⟩ := by
    rw [hmap]
    exact dart_allreduce_custom_all_valid binop deflt _ hmne
  have hcomp :
      (local_result.value ∘ fun v => (⟨v, true⟩ : local_result α)) = id := rfl
  have hnat :
      dart_allreduce_native binop deflt
          (locals.map (local_result.value ∘ localFold binop deflt)) =
        spec_allreduce binop deflt
          (locals.map (spec_local_contribution binop deflt)) := by
    rw [← List.map_map, hmap, List.map_map, hcomp, List.map_id]
    exact dart_allreduce_native_eq_spec binop deflt _
  cases ne <;> cases dop <;> cases dt <;>
    simp [accumulate, accumulate_g, hcust, hnat]

/-- C1 witness: a concrete run of `accumulate` with two units holding
`[1, 2]` and `[3]`, `init = 10` and addition. -/
theorem accumulate_two_phase_w :
    (([[1, 2], [3]] : List (List Int)) ≠ []) ∧
    (∀ l ∈ ([[1, 2], [3]] : List (List Int)), l ≠ []) ∧
    accumulate ([[1, 2], [3]] : List (List Int)) 10 (fun a b => a + b) false true true 0 =
      (fun a b => a + b) 10 (spec_allreduce (fun a b => a + b) 0
        (([[1, 2], [3]] : List (List Int)).map
          (spec_local_contribution (fun a b => a + b) 0))) :=
  ⟨by decide, by decide,
   accumulate_two_phase ([[1, 2], [3]] : List (List Int)) 10 (fun a b => a + b) 0
     false true true (by decide) (by decide)⟩

/-- C2 counterexample: with every unit's local range empty, `binop`
integer multiplication and `init = 5`, `dash::accumulate` returns
`binop(init, ValueType{}) = 5 * 0 = 0`, not `init = 5` — the claim that
`init` is returned unchanged for every `binop` and every `init` fails
(the diagnostic is logged, as the claim says). -/
theorem accumulate_all_empty_cex :
    accumulate ([[], []] : List (List Int)) 5 (fun a b => a * b) false true true 0 = 0 ∧
    (0 : Int) ≠ 5 ∧
    accumulate_logs_error ([[], []] : List (List Int)) (fun a b => a * b)
      false true true 0 = true := by
  decide

/-- C2 (amended): when every unit's local range is empty and the custom
all-reduce path is taken (the reduction payload stays invalid),
`dash::accumulate` returns `binop(init, ValueType{})` — `binop` applied to
`init` and the value-initialized `ValueType` — which equals `init` for the
default sum on arithmetic types but not for every `binop`; the diagnostic
is logged and execution continues. -/
theorem accumulate_all_empty_amended {α : Type} (locals : List (List α)) (init : α)
    (binop : α → α → α) (deflt : α) (ne dop dt : Bool)
    (hempty : ∀ l ∈ locals, l = [])
    (hpath : accumulate_uses_native ne dop dt = false) :
    accumulate locals init binop ne dop dt deflt = binop init deflt ∧
    accumulate_logs_error locals binop ne dop dt deflt = true := by
  have hinv : ∀ c ∈ locals.map (localFold binop deflt), c.valid = false := by
    intro c hc
    rcases List.mem_map.mp hc with ⟨l, hml, rfl⟩
    rw [hempty l hml]
    rfl
  have hcust := dart_allreduce_custom_all_invalid binop deflt
    (locals.map (localFold binop deflt)) hinv
  cases ne <;> cases dop <;> cases dt <;>
    simp_all [accumulate, accumulate_g, accumulate_logs_error,
              accumulate_uses_native, hcust]

/-- C2 (amended) witness: two empty units, integer multiplication,
`init = 7`. -/
theorem accumulate_all_empty_amended_w :
    (∀ l ∈ ([[], []] : List (List Int)), l = []) ∧
    accumulate_uses_native false true true = false ∧
    (accumulate ([[], []] : List (List Int)) 7 (fun a b => a * b) false true true 0 =
       (fun a b => a * b) 7 0 ∧
     accumulate_logs_error ([[], []] : List (List Int)) (fun a b => a * b)
       false true true 0 = true) :=
  ⟨by decide, by decide,
   accumulate_all_empty_amended ([[], []] : List (List Int)) 7 (fun a b => a * b) 0
     false true true (by decide) (by decide)⟩

/-- C3 counterexample: with `binop` a recognized reduction and the value
type a transport primitive (`dop_defined = dtype_defined = true`) but the
`non_empty` hint false, the native path is NOT used — and the choice is
observable: with units `[2]` and `[]`, multiplication and `init = 1`, the
custom path returns `2` while the native path would return `0`. -/
theorem accumulate_native_path_cex :
    accumulate_uses_native false true true = false ∧
    accumulate ([[2], []] : List (List Int)) 1 (fun a b => a * b) false true true 0 = 2 ∧
    accumulate ([[2], []] : List (List Int)) 1 (fun a b => a * b) true true true 0 = 0 ∧
    (2 : Int) ≠ 0 := by
  decide

/-- C3 (amended): the native all-reduce path is used iff the `non_empty`
hint is true AND `binop` is a recognized reduction AND the value type maps
to a transport primitive; otherwise the custom `(value, valid)` payload is
used.  The global-range overload always passes `units_non_empty = false`
and therefore always uses the custom payload. -/
theorem accumulate_native_path_amended {α : Type} (locals : List (List α)) (init : α)
    (binop : α → α → α) (deflt : α) (ne dop dt : Bool) :
    (accumulate_uses_native ne dop dt = (ne && dop && dt)) ∧
    (accumulate locals init binop ne dop dt deflt =
      if accumulate_uses_native ne dop dt then
        binop init (dart_allreduce_native binop deflt
          ((locals.map (localFold binop deflt)).map local_result.value))
      else
        binop init (dart_allreduce_custom binop deflt
          (locals.map (localFold binop deflt))).value) ∧
    (accumulate_glob locals init binop dop dt deflt =
      binop init (dart_allreduce_custom binop deflt
        (locals.map (localFold binop deflt))).value) := by
  cases ne <;> cases dop <;> cases dt <;>
    simp [accumulate_uses_native, accumulate, accumulate_g, accumulate_glob]

/-- C4: the custom all-reduce combiner applies the user `binop` only when
both payloads are valid; a lone valid payload wins (value and flag); two
invalid payloads leave the accumulator unchanged; an empty local range
produces an invalid payload; and invalid payloads never contribute to the
combined all-reduce result (filtering them out changes nothing). -/
theorem accumulate_custom_combiner_spec {α : Type} (fn : α → α → α) (a b deflt : α)
    (contribs : List (local_result α)) :
    accumulate_custom_fn fn ⟨a, true⟩ ⟨b, true⟩ = ⟨fn a b, true⟩ ∧
    accumulate_custom_fn fn ⟨a, true⟩ ⟨b, false⟩ = ⟨a, true⟩ ∧
    accumulate_custom_fn fn ⟨a, false⟩ ⟨b, true⟩ = ⟨b, true⟩ ∧
    accumulate_custom_fn fn ⟨a, false⟩ ⟨b, false⟩ = ⟨b, false⟩ ∧
    localFold fn deflt ([] : List α) = ⟨deflt, false⟩ ∧
    dart_allreduce_custom fn deflt contribs =
      dart_allreduce_custom fn deflt (contribs.filter fun c => c.valid) := by
  refine ⟨by simp [accumulate_custom_fn], by simp [accumulate_custom_fn],
          by simp [accumulate_custom_fn], by simp [accumulate_custom_fn],
          rfl, ?_⟩
  exact foldl_custom_filter fn contribs ⟨deflt, false⟩

/- ================================================================
   Claim theorems: C5, C7, C10 (GlobAsyncRef / Future)
   ================================================================ -/

/-- C5 (code bug): `Future<GlobRef<T>>`'s constructors pass `&_valptr` —
the address of the `std::unique_ptr` member itself — as the destination of
`dart_get_handle`, instead of the buffer `_valptr.get()`.  Concretely,
with the member cell at address 5, the heap buffer at address 100, all
memory initially 0 and the referenced element holding 42: the transfer
overwrites the member cell, and `get()` dereferences the clobbered pointer
and returns `mem[42] = 0`, not 42.  With the intended destination (the
buffer), `get()` returns 42.  In both variants `get()` implies `wait()`
(the completion flag is set). -/
theorem future_get_bug :
    (Future_get 42 (Future_ctor (fun _ => 0) 5 100)).1 = 0 ∧
    (Future_get 42 (Future_ctor_intended (fun _ => 0) 5 100)).1 = 42 ∧
    (0 : Nat) ≠ 42 ∧
    (Future_get 42 (Future_ctor (fun _ => 0) 5 100)).2.2.completed = true ∧
    (Future_get 42 (Future_ctor_intended (fun _ => 0) 5 100)).2.2.completed = true := by
  refine ⟨rfl, rfl, by decide, rfl, rfl⟩

/-- C7: rebinding a `GlobAsyncRef` to a struct member at byte offset
`offs` — through either `member` overload — yields a reference whose
global pointer is the parent's advanced by `offs` bytes (unit and segment
unchanged), whose locality flag equals the parent's, and, when the parent
is local, whose cached local pointer is the parent's advanced by `offs`
bytes. -/
theorem memberAt_rebinding_spec (parent : GlobAsyncRef) (offs : Nat) :
    (parent.memberAt offs)._gptr.addr = parent._gptr.addr + offs ∧
    (parent.memberAt offs)._gptr.unitid = parent._gptr.unitid ∧
    (parent.memberAt offs)._gptr.segid = parent._gptr.segid ∧
    (parent.memberAt offs)._is_local = parent._is_local ∧
    (∀ l : Nat, parent._is_local = true → parent._lptr = some l →
      (parent.memberAt offs)._lptr = some (l + offs)) := by
  refine ⟨rfl, rfl, rfl, rfl, ?_⟩
  intro l hloc hl
  simp [GlobAsyncRef.memberAt, hloc, hl]

/-- C7 witness: a concrete local reference at global address 8 with cached
local pointer 16, rebound to a member at offset 4. -/
theorem memberAt_rebinding_spec_w :
    ((GlobAsyncRef.memberAt ⟨⟨0, 1, 8⟩, some 16, true⟩ 4)._gptr.addr = 8 + 4 ∧
     (GlobAsyncRef.memberAt ⟨⟨0, 1, 8⟩, some 16, true⟩ 4)._gptr.unitid = 0 ∧
     (GlobAsyncRef.memberAt ⟨⟨0, 1, 8⟩, some 16, true⟩ 4)._gptr.segid = 1 ∧
     (GlobAsyncRef.memberAt ⟨⟨0, 1, 8⟩, some 16, true⟩ 4)._is_local = true) ∧
    (GlobAsyncRef.memberAt ⟨⟨0, 1, 8⟩, some 16, true⟩ 4)._lptr = some (16 + 4) :=
  ⟨⟨(memberAt_rebinding_spec ⟨⟨0, 1, 8⟩, some 16, true⟩ 4).1,
    (memberAt_rebinding_spec ⟨⟨0, 1, 8⟩, some 16, true⟩ 4).2.1,
    (memberAt_rebinding_spec ⟨⟨0, 1, 8⟩, some 16, true⟩ 4).2.2.1,
    (memberAt_rebinding_spec ⟨⟨0, 1, 8⟩, some 16, true⟩ 4).2.2.2.1⟩,
   (memberAt_rebinding_spec ⟨⟨0, 1, 8⟩, some 16, true⟩ 4).2.2.2.2 16 rfl rfl⟩

/-- C10: `GlobAsyncRef::flush` on a reference whose global pointer is the
null sentinel — in particular one with all members at their default
initializers — performs no transport operation and returns normally; a
flush is issued exactly when the global pointer is non-null (one operation
then, none otherwise); and the decision depends only on the global
pointer, not on the cached local pointer or the locality flag. -/
theorem flush_null_noop :
    GlobAsyncRef.defaultInit.flush = [] ∧
    (∀ r : GlobAsyncRef,
      r.flush.length = if DART_GPTR_ISNULL r._gptr then 0 else 1) ∧
    (∀ (g : dart_gptr_t) (l l' : Option Nat) (b b' : Bool),
      GlobAsyncRef.flush ⟨g, l, b⟩ = GlobAsyncRef.flush ⟨g, l', b'⟩) := by
  refine ⟨rfl, ?_, fun g l l' b b' => rfl⟩
  intro r
  by_cases h : DART_GPTR_ISNULL r._gptr
  · simp [GlobAsyncRef.flush, h]
  · simp [GlobAsyncRef.flush, h]

/- ================================================================
   Helper lemmas: PatternMetrics
   ================================================================ -/

/-- Incrementing one in-range entry of an integer list increments its sum. -/
theorem sum_set_increment (l : List Int) (n : Nat) (h : n < l.length) :
    (l.set n (l.getD n 0 + 1)).sum = l.sum + 1 := by
  have hget : l.getD n 0 = l[n] := by
    rw [List.getD_eq_getElem?_getD, List.getElem?_eq_getElem h]
    rfl
  rw [List.sum_set, if_pos h, hget]
  have hsplit := List.sum_take_add_sum_drop l n
  rw [List.drop_eq_getElem_cons h, List.sum_cons] at hsplit
  omega

/-- The block-counting fold preserves the tally's length. -/
theorem foldl_set_length (f : Nat → Nat) :
    ∀ (bis : List Nat) (l : List Int),
    (bis.foldl (fun ub bi => ub.set (f bi) (ub.getD (f bi) 0 + 1)) l).length =
      l.length := by
  intro bis
  induction bis with
  | nil => intro l; rfl
  | cons bi bis ih =>
    intro l
    rw [List.foldl_cons, ih, List.length_set]

/-- The block-counting fold, started from a tally of non-negative entries
whose length covers every counted index, adds exactly one per counted
block to the total of the tally and keeps all entries non-negative. -/
theorem tally_foldl_spec (f : Nat → Nat) :
    ∀ (bis : List Nat) (l : List Int),
    (∀ bi ∈ bis, f bi < l.length) → (∀ x ∈ l, (0 : Int) ≤ x) →
    ((bis.foldl (fun ub bi => ub.set (f bi) (ub.getD (f bi) 0 + 1)) l).sum =
        l.sum + (bis.length : Int) ∧
     (∀ x ∈ bis.foldl (fun ub bi => ub.set (f bi) (ub.getD (f bi) 0 + 1)) l,
        (0 : Int) ≤ x)) := by
  intro bis
  induction bis with
  | nil =>
    intro l _ h0
    exact ⟨by simp, h0⟩
  | cons bi bis ih =>
    intro l hb h0
    have hbi : f bi < l.length := hb bi (List.mem_cons_self bi bis)
    have hlen1 : (l.set (f bi) (l.getD (f bi) 0 + 1)).length = l.length :=
      List.length_set l (f bi) _
    have hsum1 := sum_set_increment l (f bi) hbi
    have h01 : ∀ x ∈ l.set (f bi) (l.getD (f bi) 0 + 1), (0 : Int) ≤ x := by
      intro x hx
      rcases List.mem_or_eq_of_mem_set hx with hxl | hxe
      · exact h0 x hxl
      · have hget : l.getD (f bi) 0 = l[f bi] := by
          rw [List.getD_eq_getElem?_getD, List.getElem?_eq_getElem hbi]
          rfl
        have hnn : (0 : Int) ≤ l.getD (f bi) 0 := by
          rw [hget]
          exact h0 _ (List.getElem_mem hbi)
        omega
    have hb1 : ∀ b ∈ bis, f b < (l.set (f bi) (l.getD (f bi) 0 + 1)).length := by
      intro b hbm
      rw [hlen1]
      exact hb b (List.mem_cons_of_mem bi hbm)
    obtain ⟨hS, hN⟩ := ih (l.set (f bi) (l.getD (f bi) 0 + 1)) hb1 h01
    constructor
    · rw [List.foldl_cons, hS, hsum1, List.length_cons]
      push_cast
      ring
    · rw [List.foldl_cons]
      exact hN

/-- The tally produced by `init_metrics` has one entry per unit. -/
theorem init_unit_blocks_length (p : MetricsPattern) :
    (init_unit_blocks p).length = p.nunits := by
  unfold init_unit_blocks
  rw [foldl_set_length, List.length_replicate]

/-- Reading a list back off through `getD` over its index range
reconstructs the list. -/
theorem map_getD_range (l : List Int) :
    (List.range l.length).map (fun u => l.getD u 0) = l := by
  apply List.ext_getElem
  · simp
  · intro n h1 h2
    simp only [List.getElem_map, List.getElem_range]
    rw [List.getD_eq_getElem?_getD, List.getElem?_eq_getElem h2]
    rfl

/-- Multiplication by a non-negative integer distributes over `min`. -/
theorem int_min_mul (a b c : Int) (hc : 0 ≤ c) :
    min (a * c) (b * c) = min a b * c := by
  rcases le_total a b with h | h
  · rw [min_eq_left (mul_le_mul_of_nonneg_right h hc), min_eq_left h]
  · rw [min_eq_right (mul_le_mul_of_nonneg_right h hc), min_eq_right h]

/-- Multiplication by a non-negative integer distributes over `max`. -/
theorem int_max_mul (a b c : Int) (hc : 0 ≤ c) :
    max (a * c) (b * c) = max a b * c := by
  rcases le_total a b with h | h
  · rw [max_eq_right (mul_le_mul_of_nonneg_right h hc), max_eq_right h]
  · rw [max_eq_left (mul_le_mul_of_nonneg_right h hc), max_eq_left h]

/-- Scaling every entry by a non-negative integer scales the running
minimum fold. -/
theorem foldl_min_map_mul (c : Int) (hc : 0 ≤ c) :
    ∀ (xs : List Int) (a : Int),
    (xs.map (fun x => x * c)).foldl min (a * c) = xs.foldl min a * c := by
  intro xs
  induction xs with
  | nil => intro a; rfl
  | cons x xs ih =>
    intro a
    simp only [List.map_cons, List.foldl_cons]
    rw [int_min_mul a x c hc]
    exact ih (min a x)

/-- Scaling every entry by a non-negative integer scales the running
maximum fold. -/
theorem foldl_max_map_mul (c : Int) (hc : 0 ≤ c) :
    ∀ (xs : List Int) (a : Int),
    (xs.map (fun x => x * c)).foldl max (a * c) = xs.foldl max a * c := by
  intro xs
  induction xs with
  | nil => intro a; rfl
  | cons x xs ih =>
    intro a
    simp only [List.map_cons, List.foldl_cons]
    rw [int_max_mul a x c hc]
    exact ih (max a x)

/-- Scaling every entry by a non-negative integer scales the minimum of a
list. -/
theorem listMinI_map_mul (c : Int) (hc : 0 ≤ c) (l : List Int) :
    listMinI (l.map (fun x => x * c)) = listMinI l * c := by
  match l with
  | [] => simp [listMinI]
  | x :: xs => exact foldl_min_map_mul c hc xs x

/-- Scaling every entry by a non-negative integer scales the maximum of a
list. -/
theorem listMaxI_map_mul (c : Int) (hc : 0 ≤ c) (l : List Int) :
    listMaxI (l.map (fun x => x * c)) = listMaxI l * c := by
  match l with
  | [] => simp [listMaxI]
  | x :: xs => exact foldl_max_map_mul c hc xs x

/- ================================================================
   Claim theorems: C8, C9 (PatternMetrics)
   ================================================================ -/

/-- C8 counterexample: for the rank-2 `(NONE, BLOCKED)` pattern of extents
`(1, 3)` over 2 units, each unit owns one block, the nominal block size is
`1 * 2 = 2`, so `min_elements_per_unit() = 2`; but the trailing block is
truncated and unit 1 really holds only 1 element, so the minimum over the
team's units of the number of elements mapped to a unit is 1 — the claim's
equality fails. -/
theorem metrics_elements_cex :
    PatternMetrics.min_elements_per_unit (blockedPattern 1 3 2) = 2 ∧
    min (blockedLocalSize 1 3 2 0) (blockedLocalSize 1 3 2 1) = 1 ∧
    ((2 : Int) ≠ (1 : Int)) ∧
    PatternMetrics.unit_local_blocks (blockedPattern 1 3 2) 0 = 1 ∧
    PatternMetrics.unit_local_blocks (blockedPattern 1 3 2) 1 = 1 := by
  decide

/-- C8 (amended): `min_elements_per_unit()` and `max_elements_per_unit()`
equal the minimum and maximum over the team's units of (blocks mapped to
the unit) times the NOMINAL full block size `blocksize(0) * blocksize(1)`;
this equals the true per-unit element minimum/maximum exactly when every
unit's element count is its block count times that nominal block size
(i.e. no truncated blocks).  `imbalance_factor()` equals
`max_elements_per_unit / min_elements_per_unit` (computed in `float` by
the C++, modelled as an exact rational), and equals 1 exactly when the
per-unit block counts coincide (and the elements per unit are non-zero). -/
theorem metrics_elements_amended (p : MetricsPattern) (elemCnt : Nat → Int)
    (hn : 0 < p.nunits)
    (hfull : ∀ u, u < p.nunits →
      elemCnt u =
        PatternMetrics.unit_local_blocks p u * PatternMetrics.block_size p) :
    PatternMetrics.min_elements_per_unit p =
      listMinI ((List.range p.nunits).map elemCnt) ∧
    PatternMetrics.max_elements_per_unit p =
      listMaxI ((List.range p.nunits).map elemCnt) ∧
    PatternMetrics.imbalance_factor p =
      (PatternMetrics.max_elements_per_unit p : ℚ) /
        (PatternMetrics.min_elements_per_unit p : ℚ) ∧
    (PatternMetrics.min_blocks p = PatternMetrics.max_blocks p →
      PatternMetrics.min_elements_per_unit p ≠ 0 →
      PatternMetrics.imbalance_factor p = 1) := by
  have hlen := init_unit_blocks_length p
  have hc : (0 : Int) ≤ PatternMetrics.block_size p := Int.natCast_nonneg _
  have hmape :
      (List.range p.nunits).map elemCnt =
        (init_unit_blocks p).map (fun x => x * PatternMetrics.block_size p) := by
    have h1 : (List.range p.nunits).map elemCnt =
        (List.range p.nunits).map
          (fun u =>
            PatternMetrics.unit_local_blocks p u * PatternMetrics.block_size p) :=
      List.map_congr_left (fun u hu => hfull u (List.mem_range.mp hu))
    have h2 : (List.range p.nunits).map
          (fun u =>
            PatternMetrics.unit_local_blocks p u * PatternMetrics.block_size p) =
        ((List.range p.nunits).map (fun u => (init_unit_blocks p).getD u 0)).map
          (fun x => x * PatternMetrics.block_size p) := by
      rw [List.map_map]
      rfl
    have h3 : (List.range p.nunits).map (fun u => (init_unit_blocks p).getD u 0) =
        init_unit_blocks p := by
      rw [← hlen]
      exact map_getD_range (init_unit_blocks p)
    rw [h1, h2, h3]
  refine ⟨?_, ?_, rfl, ?_⟩
  · rw [hmape, listMinI_map_mul _ hc]
    rfl
  · rw [hmape, listMaxI_map_mul _ hc]
    rfl
  · intro heq hne0
    unfold PatternMetrics.imbalance_factor
    have hmm : PatternMetrics.max_elements_per_unit p =
        PatternMetrics.min_elements_per_unit p := by
      unfold PatternMetrics.max_elements_per_unit
        PatternMetrics.min_elements_per_unit
      rw [heq]
    rw [hmm]
    apply div_self
    exact_mod_cast hne0

/-- C8 (amended) witness: the `(NONE, BLOCKED)` pattern of extents
`(1, 4)` over 2 units — every block full, 2 elements per unit, imbalance
factor exactly 1. -/
theorem metrics_elements_amended_w :
    (0 < (blockedPattern 1 4 2).nunits) ∧
    (∀ u, u < (blockedPattern 1 4 2).nunits →
      ((blockedLocalSize 1 4 2 u : Int)) =
        PatternMetrics.unit_local_blocks (blockedPattern 1 4 2) u *
          PatternMetrics.block_size (blockedPattern 1 4 2)) ∧
    (PatternMetrics.min_elements_per_unit (blockedPattern 1 4 2) =
      listMinI ((List.range (blockedPattern 1 4 2).nunits).map
        (fun u => (blockedLocalSize 1 4 2 u : Int))) ∧
    PatternMetrics.max_elements_per_unit (blockedPattern 1 4 2) =
      listMaxI ((List.range (blockedPattern 1 4 2).nunits).map
        (fun u => (blockedLocalSize 1 4 2 u : Int))) ∧
    PatternMetrics.imbalance_factor (blockedPattern 1 4 2) =
      (PatternMetrics.max_elements_per_unit (blockedPattern 1 4 2) : ℚ) /
        (PatternMetrics.min_elements_per_unit (blockedPattern 1 4 2) : ℚ) ∧
    (PatternMetrics.min_blocks (blockedPattern 1 4 2) =
        PatternMetrics.max_blocks (blockedPattern 1 4 2) →
      PatternMetrics.min_elements_per_unit (blockedPattern 1 4 2) ≠ 0 →
      PatternMetrics.imbalance_factor (blockedPattern 1 4 2) = 1)) :=
  ⟨by decide, by decide,
   metrics_elements_amended (blockedPattern 1 4 2)
     (fun u => (blockedLocalSize 1 4 2 u : Int)) (by decide) (by decide)⟩

/-- C9: after the `init_metrics` tally, every unit's block count is
non-negative and the counts over the team's units sum to `num_blocks()` —
every block is attributed to exactly one unit (the owner of its first
element) — provided each block's owner is a valid unit index (out-of-range
indexing of `_unit_blocks` would be undefined behavior in the C++). -/
theorem metrics_blocks_partition (p : MetricsPattern)
    (h : ∀ bi, bi < p.num_blocks → p.block_unit bi < p.nunits) :
    (init_unit_blocks p).length = p.nunits ∧
    (init_unit_blocks p).sum = (p.num_blocks : Int) ∧
    (∀ u : Nat, 0 ≤ PatternMetrics.unit_local_blocks p u) := by
  have hb : ∀ bi ∈ List.range p.num_blocks,
      p.block_unit bi < (List.replicate p.nunits (0 : Int)).length := by
    intro bi hbi
    rw [List.length_replicate]
    exact h bi (List.mem_range.mp hbi)
  have h0 : ∀ x ∈ List.replicate p.nunits (0 : Int), (0 : Int) ≤ x := by
    intro x hx
    rw [(List.mem_replicate.mp hx).2]
  obtain ⟨hS, hN⟩ :=
    tally_foldl_spec p.block_unit (List.range p.num_blocks) _ hb h0
  refine ⟨init_unit_blocks_length p, ?_, ?_⟩
  · show (init_unit_blocks p).sum = (p.num_blocks : Int)
    unfold init_unit_blocks
    rw [hS]
    simp [List.sum_replicate]
  · intro u
    unfold PatternMetrics.unit_local_blocks
    by_cases hu : u < (init_unit_blocks p).length
    · rw [List.getD_eq_getElem?_getD, List.getElem?_eq_getElem hu]
      have hmem : (init_unit_blocks p)[u] ∈ init_unit_blocks p :=
        List.getElem_mem hu
      have : ∀ x ∈ init_unit_blocks p, (0 : Int) ≤ x := by
        unfold init_unit_blocks
        exact hN
      exact this _ hmem
    · rw [List.getD_eq_getElem?_getD, List.getElem?_eq_none (le_of_not_lt hu)]
      exact le_refl 0

/-- C9 witness: the `(NONE, BLOCKED)` pattern of extents `(1, 3)` over 2
units — 2 blocks, one per unit, summing to `num_blocks() = 2`. -/
theorem metrics_blocks_partition_w :
    (∀ bi, bi < (blockedPattern 1 3 2).num_blocks →
      (blockedPattern 1 3 2).block_unit bi < (blockedPattern 1 3 2).nunits) ∧
    ((init_unit_blocks (blockedPattern 1 3 2)).length =
        (blockedPattern 1 3 2).nunits ∧
     (init_unit_blocks (blockedPattern 1 3 2)).sum =
        ((blockedPattern 1 3 2).num_blocks : Int) ∧
     (∀ u : Nat,
        0 ≤ PatternMetrics.unit_local_blocks (blockedPattern 1 3 2) u)) :=
  ⟨by decide, metrics_blocks_partition (blockedPattern 1 3 2) (by decide)⟩

/- ================================================================
   Claim theorems: C6 (view algebra)
   ================================================================ -/

/-- Reading a list at an index different from the one just written is
unaffected by the write. -/
theorem getD_set_ne (l : List Nat) (i j : Nat) (a d : Nat) (h : i ≠ j) :
    (l.set i a).getD j d = l.getD j d := by
  rw [List.getD_eq_getElem?_getD, List.getElem?_set_ne h,
      ← List.getD_eq_getElem?_getD]

/-- C6: for every view, every pair of distinct dimensions `d0 ≠ d1` and
every pair of valid ranges, composing `sub` in either order yields views
with equal `extents()` and equal `offsets()`. -/
theorem sub_commute (V : NView) (d0 d1 a b c d' : Nat)
    (hd : d0 ≠ d1)
    (hab : a ≤ b) (hb : b ≤ V.extent d0)
    (hcd : c ≤ d') (hd2 : d' ≤ V.extent d1) :
    (NView.sub d1 c d' (NView.sub d0 a b V)).extents =
      (NView.sub d0 a b (NView.sub d1 c d' V)).extents ∧
    (NView.sub d1 c d' (NView.sub d0 a b V)).offsets =
      (NView.sub d0 a b (NView.sub d1 c d' V)).offsets := by
  constructor
  · show (V.extents.set d0 (b - a)).set d1 (d' - c) =
        (V.extents.set d1 (d' - c)).set d0 (b - a)
    exact List.set_comm _ _ V.extents hd
  · show (V.offsets.set d0 (V.offsets.getD d0 0 + a)).set d1
        ((V.offsets.set d0 (V.offsets.getD d0 0 + a)).getD d1 0 + c) =
      (V.offsets.set d1 (V.offsets.getD d1 0 + c)).set d0
        ((V.offsets.set d1 (V.offsets.getD d1 0 + c)).getD d0 0 + a)
    rw [getD_set_ne _ _ _ _ _ hd, getD_set_ne _ _ _ _ _ hd.symm]
    exact List.set_comm _ _ V.offsets hd

/-- C6 witness: the matrix of extents `(8, 6)` from scenario S2 of the
specification, with `sub<0>(1,3, .)` and `sub<1>(2,5, .)` composed in both
orders — both give extents `(2, 3)` and offsets `(1, 2)`. -/
theorem sub_commute_w :
    ((0 : Nat) ≠ 1 ∧ (1 : Nat) ≤ 3 ∧
      3 ≤ NView.extent ⟨[8, 6], [0, 0]⟩ 0 ∧
      (2 : Nat) ≤ 5 ∧ 5 ≤ NView.extent ⟨[8, 6], [0, 0]⟩ 1) ∧
    ((NView.sub 1 2 5 (NView.sub 0 1 3 ⟨[8, 6], [0, 0]⟩)).extents =
       (NView.sub 0 1 3 (NView.sub 1 2 5 ⟨[8, 6], [0, 0]⟩)).extents ∧
     (NView.sub 1 2 5 (NView.sub 0 1 3 ⟨[8, 6], [0, 0]⟩)).offsets =
       (NView.sub 0 1 3 (NView.sub 1 2 5 ⟨[8, 6], [0, 0]⟩)).offsets) ∧
    (NView.sub 1 2 5 (NView.sub 0 1 3 ⟨[8, 6], [0, 0]⟩)).extents = [2, 3] ∧
    (NView.sub 1 2 5 (NView.sub 0 1 3 ⟨[8, 6], [0, 0]⟩)).offsets = [1, 2] :=
  ⟨by decide,
   sub_commute ⟨[8, 6], [0, 0]⟩ 0 1 1 3 2 5 (by decide) (by decide) (by decide)
     (by decide) (by decide),
   by decide, by decide⟩
